import Mathlib

/-!
Shallow embedding of the secure AI agent gateway (Rust) for specification
checking.  Conventions used throughout:

* Rust `Uuid` values are modelled as `Nat`.
* `chrono::DateTime<Utc>` instants and `std::time::Instant` instants are
  modelled as `Int` (seconds); `chrono::Duration::days n` is `86400 * n`
  seconds and `chrono::Duration::hours n` is `3600 * n` seconds.
* Rust `u8` bytes and byte strings are modelled as `Nat` and `List Nat`
  with the bound `b < 256` carried as a hypothesis where it matters.
* `std::collections::HashMap` is modelled as an association list with
  replace-or-append insertion; iteration over `values()` is modelled as
  iteration over the association list in order (one legitimate instance
  of the arbitrary iteration order of a hash map).
* Fallible operations return `Except GatewayError` mirroring the Rust
  `Result<_, GatewayError>`; `Utc::now()` and randomly generated values
  (fresh UUIDs, AEAD nonces) are passed in as explicit parameters.
* File writes are modelled by a `writeOk : Bool` oracle where the claim
  depends on them, together with an explicit model of the written
  contents.
-/

/-- Replace-or-append insertion on an association list, mirroring
`HashMap::insert`: if the key is present its first binding is replaced
in place, otherwise the pair is appended at the end. -/
def mapInsert {κ ν : Type} [DecidableEq κ] : List (κ × ν) → κ → ν → List (κ × ν)
  | [], k, v => [(k, v)]
  | p :: t, k, v => if p.1 = k then (k, v) :: t else p :: mapInsert t k v

/-- Lookup in an association list, mirroring `HashMap::get`. -/
def mapFind {κ ν : Type} [DecidableEq κ] : List (κ × ν) → κ → Option ν
  | [], _ => none
  | p :: t, k => if p.1 = k then some p.2 else mapFind t k

theorem mapFind_mapInsert_self {κ ν : Type} [DecidableEq κ]
    (m : List (κ × ν)) (k : κ) (v : ν) :
    mapFind (mapInsert m k v) k = some v := by
  induction m with
  | nil => simp [mapInsert, mapFind]
  | cons p t ih =>
    by_cases hp : p.1 = k
    · simp [mapInsert, mapFind, hp]
    · simp [mapInsert, mapFind, hp, ih]

theorem mapFind_mapInsert_ne {κ ν : Type} [DecidableEq κ]
    (m : List (κ × ν)) (k k' : κ) (v : ν) (hne : k' ≠ k) :
    mapFind (mapInsert m k v) k' = mapFind m k' := by
  induction m with
  | nil => simp [mapInsert, mapFind, Ne.symm hne]
  | cons p t ih =>
    by_cases hp : p.1 = k
    · by_cases hp' : p.1 = k'
      · exact absurd (hp'.symm.trans hp) hne
      · simp [mapInsert, mapFind, hp, hp', Ne.symm hne]
    · by_cases hp' : p.1 = k'
      · simp [mapInsert, mapFind, hp, hp', hne]
      · simp [mapInsert, mapFind, hp, hp', ih]

/-- The tagged error type of the gateway, from src/error/types.rs. -/
inductive GatewayError where
  | Unauthorized (msg : String)
  | SessionExpired
  | TokenError (msg : String)
  | Forbidden (msg : String)
  | ServiceNotAllowed (svc : String)
  | RateLimitExceeded
  | BadRequest (msg : String)
  | ReplayDetected
  | UpstreamError (msg : String)
  | CredentialNotFound (svc : String)
  | TokenRefreshFailed (msg : String)
  | Internal (msg : String)
  | NotFound (msg : String)
deriving DecidableEq

/-- In-memory credential record, from src/config/credentials.rs
(`StoredCredential`); token strings are byte lists. -/
structure StoredCredential where
  service_id : String
  access_token : List Nat
  refresh_token : Option (List Nat)
  expires_at : Option Int
  scopes : List String
deriving DecidableEq

/-- The fixed refresh buffer from src/gateway/token_refresh.rs:
six hours, in seconds. -/
def REFRESH_BUFFER_SECS : Int := 6 * 3600

/-- src/gateway/token_refresh.rs `needs_refresh`: the credential needs a
refresh when it has an expiry and `now + 6h > expires_at`. -/
def needs_refresh (credential : StoredCredential) (now : Int) : Bool :=
  match credential.expires_at with
  | some expires_at => decide (now + REFRESH_BUFFER_SECS > expires_at)
  | none => false

/-- Claim C7: `needs_refresh` holds exactly when `expires_at` is set and
`now + 6h > expires_at`, equivalently when the remaining time to expiry
is below six hours; with no expiry it is false. -/
theorem needs_refresh_iff (c : StoredCredential) (now : Int) :
    needs_refresh c now = true ↔
      ∃ e, c.expires_at = some e ∧ now + 21600 > e ∧ e - now < 21600 := by
  unfold needs_refresh REFRESH_BUFFER_SECS
  cases h : c.expires_at with
  | none => simp
  | some e =>
    simp only [decide_eq_true_eq]
    constructor
    · intro hlt
      exact ⟨e, rfl, by omega, by omega⟩
    · rintro ⟨e', he', h1, _⟩
      cases he'
      omega

/-- Rate limit record attached to agents, from src/models/common.rs. -/
structure RateLimit where
  requests : Nat
  window_secs : Nat
deriving DecidableEq

/-- Agent (rotatable access key), from src/models/agent.rs.  The id is a
`Nat` standing for the `Uuid`; timestamps are `Int` seconds. -/
structure Agent where
  id : Nat
  name : String
  description : String
  allowed_services : List String
  scopes : List String
  rate_limit : RateLimit
  ip_allowlist : Option (List String)
  expires_at : Int
  lifespan_days : Nat
  created_at : Int
  updated_at : Int
deriving DecidableEq

/-- src/models/agent.rs `Agent::rotate`: replace the id with a freshly
generated UUID (here the parameter `freshId`), recompute
`expires_at = now + lifespan_days` days and stamp `updated_at = now`.
The Rust method mutates in place and returns the new id; the new id is
the `id` field of the returned record. -/
def Agent.rotate (a : Agent) (now : Int) (freshId : Nat) : Agent :=
  { a with id := freshId, expires_at := now + 86400 * a.lifespan_days, updated_at := now }

/-- Session bound to an agent, from src/models/agent.rs. -/
structure AgentSession where
  session_id : String
  agent_id : Nat
  created_at : Int
  expires_at : Int
  last_used_at : Int
deriving DecidableEq

/-- src/models/agent.rs `AgentSession::is_expired`: `Utc::now() > expires_at`. -/
def AgentSession.is_expired (s : AgentSession) (now : Int) : Bool :=
  decide (now > s.expires_at)

/-- In-memory state of the agent/session store, from
src/storage/file_store.rs `AgentStore` (agents keyed by UUID, sessions
keyed by session-id string).  The file on disk mirrors the maps and is
not modelled here: claims C1-C3 concern only the in-memory maps and
`validate_session`. -/
structure AgentStore where
  agents : List (Nat × Agent)
  sessions : List (String × AgentSession)
deriving DecidableEq

/-- src/storage/file_store.rs `AgentStore::get_agent`. -/
def AgentStore.get_agent (st : AgentStore) (id : Nat) : Option Agent :=
  mapFind st.agents id

/-- src/storage/file_store.rs `AgentStore::update_agent`: inserts the
agent under its (current) id; no entry is removed. -/
def AgentStore.update_agent (st : AgentStore) (agent : Agent) : AgentStore :=
  { st with agents := mapInsert st.agents agent.id agent }

/-- src/storage/file_store.rs `AgentStore::get_session`. -/
def AgentStore.get_session (st : AgentStore) (session_id : String) : Option AgentSession :=
  mapFind st.sessions session_id

/-- src/storage/file_store.rs `AgentStore::validate_session`: absent
session is `Unauthorized`, expired session is `SessionExpired`, a
session whose agent id has no agent record is `Internal`, otherwise
both records are returned. -/
def AgentStore.validate_session (st : AgentStore) (session_id : String) (now : Int) :
    Except GatewayError (AgentSession × Agent) :=
  match st.get_session session_id with
  | none => .error (.Unauthorized "Invalid session")
  | some session =>
    if session.is_expired now then
      .error .SessionExpired
    else
      match st.get_agent session.agent_id with
      | none => .error (.Internal "Agent not found")
      | some agent => .ok (session, agent)

deriving instance DecidableEq for Except

/-- A concrete agent used to evaluate the store operations: id 1,
entitled to the payment service, created at time 0 with a 7-day
lifespan. -/
def agent0 : Agent :=
  { id := 1, name := "A", description := "", allowed_services := ["payment"],
    scopes := [], rate_limit := { requests := 100, window_secs := 60 },
    ip_allowlist := none, expires_at := 86400 * 7, lifespan_days := 7,
    created_at := 0, updated_at := 0 }

/-- A concrete session bound to agent 1, valid until time 3600. -/
def session0 : AgentSession :=
  { session_id := "sess-1", agent_id := 1, created_at := 0,
    expires_at := 3600, last_used_at := 0 }

/-- A concrete store holding `agent0` and `session0`. -/
def store0 : AgentStore :=
  { agents := [(1, agent0)], sessions := [("sess-1", session0)] }

/-- Claim C1: evaluating the rotation flow of src/routes/auth.rs
(`get_agent`, `Agent::rotate`, `AgentStore::update_agent`) at a concrete
store.  The first two conjuncts of the claim hold: the rotated agent's
id is the fresh UUID and its `expires_at` is the rotation time plus
`lifespan_days` days.  The third fails: `update_agent` stores the
rotated record under the new id without removing the record under the
pre-rotation id, so the session bound to the pre-rotation id still
validates (the claim says `validate_session` must reject it). -/
theorem rotate_update_old_session_still_validates :
    (agent0.rotate 10 2).id = 2 ∧
    (agent0.rotate 10 2).expires_at = 10 + 86400 * 7 ∧
    (store0.update_agent (agent0.rotate 10 2)).validate_session "sess-1" 10 =
      .ok (session0, agent0) := by
  decide

/-- A concrete session whose agent id (99) has no agent record. -/
def orphanSession : AgentSession :=
  { session_id := "sess-orphan", agent_id := 99, created_at := 0,
    expires_at := 3600, last_used_at := 0 }

/-- A concrete store holding an orphaned session and no agents. -/
def orphanStore : AgentStore :=
  { agents := [], sessions := [("sess-orphan", orphanSession)] }

/-- Claim C2: at a store holding a present, unexpired session whose
agent id resolves to no agent, `validate_session` returns the
`Internal` error kind (surfacing as 500 internal_error), not the
`Unauthorized` kind (401) that the claim requires. -/
theorem validate_session_orphan_returns_internal :
    orphanStore.get_session "sess-orphan" = some orphanSession ∧
    orphanSession.is_expired 10 = false ∧
    orphanStore.get_agent orphanSession.agent_id = none ∧
    orphanStore.validate_session "sess-orphan" 10 =
      .error (.Internal "Agent not found") := by
  decide

/-- Claim C3: `update_agent` inserts the given agent under the agent's
current id and never removes an entry (lookup at any other key is
unchanged); consequently after `get_agent`, `rotate`, `update_agent`
the store holds the pre-rotation record under the old id as well as the
rotated record under the new id, and `get_agent` on the old id still
returns an agent. -/
theorem update_agent_keeps_old_record_after_rotation :
    (∀ (st : AgentStore) (b : Agent) (k : Nat),
      (st.update_agent b).get_agent k = if k = b.id then some b else st.get_agent k)
    ∧ (∀ (st : AgentStore) (a : Agent) (oldId freshId : Nat) (now : Int),
        st.get_agent oldId = some a → freshId ≠ oldId →
        (st.update_agent (a.rotate now freshId)).get_agent oldId = some a ∧
        (st.update_agent (a.rotate now freshId)).get_agent freshId =
          some (a.rotate now freshId)) := by
  constructor
  · intro st b k
    by_cases hk : k = b.id
    · simp [AgentStore.update_agent, AgentStore.get_agent, hk, mapFind_mapInsert_self]
    · simp [AgentStore.update_agent, AgentStore.get_agent, hk,
        mapFind_mapInsert_ne st.agents b.id k b hk]
  · intro st a oldId freshId now hget hne
    refine ⟨?_, ?_⟩
    · have hid : (a.rotate now freshId).id = freshId := rfl
      calc (st.update_agent (a.rotate now freshId)).get_agent oldId
          = st.get_agent oldId := by
            simp [AgentStore.update_agent, AgentStore.get_agent, hid,
              mapFind_mapInsert_ne st.agents freshId oldId _ (Ne.symm hne)]
        _ = some a := hget
    · exact mapFind_mapInsert_self st.agents (a.rotate now freshId).id
        (a.rotate now freshId)

/-- Witness for claim C3's theorem at the concrete rotation flow on
`store0`: the old record under id 1 survives and the rotated record is
stored under id 2. -/
theorem update_agent_keeps_old_record_after_rotation_witness :
    (store0.update_agent (agent0.rotate 10 2)).get_agent 1 = some agent0 ∧
    (store0.update_agent (agent0.rotate 10 2)).get_agent 2 =
      some (agent0.rotate 10 2) :=
  update_agent_keeps_old_record_after_rotation.2 store0 agent0 1 2 10
    (by decide) (by decide)

/-- User record, from src/models/user.rs. -/
structure User where
  id : Nat
  username : String
  email : String
  agents : List Nat
  created_at : Int
  updated_at : Int
deriving DecidableEq

/-- In-memory state of the user store, from src/storage/file_store.rs
`UserStore`: the id-keyed map, the email index, and the list of user
records last written to the file (`save_to_file` writes the values of
the id map). -/
structure UserStore where
  users : List (Nat × User)
  users_by_email : List (String × Nat)
  file : List User
deriving DecidableEq

/-- src/storage/file_store.rs `UserStore::create_user`.  A duplicate
email is rejected with `BadRequest` before any mutation.  Otherwise the
user is inserted into the email index and the id map and the file is
rewritten with the values of the id map; `writeOk` models whether
`fs::write` succeeds (serialization of plain records never fails).  On
a failed write the in-memory maps remain updated and the error
propagates. -/
def UserStore.create_user (st : UserStore) (user : User) (writeOk : Bool) :
    UserStore × Except GatewayError User :=
  if (mapFind st.users_by_email user.email).isSome then
    (st, .error (.BadRequest "Email already registered"))
  else
    let by_email' := mapInsert st.users_by_email user.email user.id
    let users' := mapInsert st.users user.id user
    if writeOk then
      ({ users := users', users_by_email := by_email',
         file := users'.map (fun p => p.2) }, .ok user)
    else
      ({ users := users', users_by_email := by_email', file := st.file },
       .error (.Internal "Failed to write users"))

/-- Claim C9: `create_user` on a user whose email is already in the
email index returns `BadRequest` and leaves the id map, the email index
and the file contents unchanged; on a fresh email it inserts the user
into both the id map and the email index and then rewrites the file
with the values of the updated id map (when the write succeeds). -/
theorem create_user_duplicate_email_and_fresh_insert
    (st : UserStore) (u : User) (writeOk : Bool) :
    ((mapFind st.users_by_email u.email).isSome →
      st.create_user u writeOk = (st, .error (.BadRequest "Email already registered")))
    ∧ ((mapFind st.users_by_email u.email).isSome = false →
        mapFind (st.create_user u writeOk).1.users u.id = some u
        ∧ mapFind (st.create_user u writeOk).1.users_by_email u.email = some u.id
        ∧ (writeOk = true →
            (st.create_user u writeOk).1.file =
              (st.create_user u writeOk).1.users.map (fun p => p.2)
            ∧ (st.create_user u writeOk).2 = .ok u)) := by
  constructor
  · intro hdup
    simp [UserStore.create_user, hdup]
  · intro hfresh
    cases writeOk with
    | true =>
      refine ⟨?_, ?_, ?_⟩
      · simp [UserStore.create_user, hfresh, mapFind_mapInsert_self]
      · simp [UserStore.create_user, hfresh, mapFind_mapInsert_self]
      · intro _
        exact ⟨by simp [UserStore.create_user, hfresh], by simp [UserStore.create_user, hfresh]⟩
    | false =>
      refine ⟨?_, ?_, ?_⟩
      · simp [UserStore.create_user, hfresh, mapFind_mapInsert_self]
      · simp [UserStore.create_user, hfresh, mapFind_mapInsert_self]
      · intro hcontra
        cases hcontra

/-- A concrete user for evaluating `create_user`. -/
def user0 : User :=
  { id := 5, username := "alice", email := "a@x.test", agents := [],
    created_at := 0, updated_at := 0 }

/-- A concrete user store already holding an entry with the email of
`user0` under id 4. -/
def userStoreDup : UserStore :=
  { users := [(4, { user0 with id := 4, username := "bob" })],
    users_by_email := [("a@x.test", 4)],
    file := [{ user0 with id := 4, username := "bob" }] }

/-- Witness for claim C9's theorem: on `userStoreDup` the duplicate
email is rejected with the store unchanged, and on the empty store the
fresh email is inserted into both maps and the file is rewritten. -/
theorem create_user_duplicate_email_and_fresh_insert_witness :
    userStoreDup.create_user user0 true =
      (userStoreDup, .error (.BadRequest "Email already registered"))
    ∧ mapFind (UserStore.create_user ⟨[], [], []⟩ user0 true).1.users 5 = some user0 :=
  ⟨(create_user_duplicate_email_and_fresh_insert userStoreDup user0 true).1 (by decide),
   by
    have h := (create_user_duplicate_email_and_fresh_insert ⟨[], [], []⟩ user0 true).2
      (by decide)
    exact h.1⟩

/-- Rate limiter policy, from src/gateway/rate_limiter.rs
(`RateLimitConfig`): a request budget over a window, the window length
in seconds. -/
structure RateLimitConfig where
  requests : Nat
  window : Nat
deriving DecidableEq

/-- src/gateway/rate_limiter.rs `RateLimiter::check_limit` for one key:
drop timestamps at or before `now - window`, reject with
`RateLimitExceeded` when the remaining count reaches the budget,
otherwise record `now`.  The per-key timestamp list is the state. -/
def check_limit (timestamps : List Int) (now : Int) (config : RateLimitConfig) :
    Except GatewayError (List Int) :=
  let window_start := now - (config.window : Int)
  let ts := timestamps.filter (fun t => decide (window_start < t))
  if config.requests ≤ ts.length then .error .RateLimitExceeded
  else .ok (ts ++ [now])

/-- A sequence of `check_limit` calls at the given instants, failing as
soon as one call fails. -/
def runChecks (st : List Int) (times : List Int) (config : RateLimitConfig) :
    Except GatewayError (List Int) :=
  match times with
  | [] => .ok st
  | t :: rest =>
    match check_limit st t config with
    | .error e => .error e
    | .ok st' => runChecks st' rest config


theorem runChecks_filter_count (config : RateLimitConfig) (a : Int)
    (times : List Int) :
    ∀ (st st' : List Int),
      runChecks st times config = .ok st' →
      (∀ x ∈ times, a < x ∧ x ≤ a + (config.window : Int)) →
      times.length + (st.filter (fun x => decide (a < x))).length ≤
        (st'.filter (fun x => decide (a < x))).length := by
  induction times with
  | nil =>
    intro st st' h _
    simp only [runChecks] at h
    cases h
    simp
  | cons t rest ih =>
    intro st st' h hin
    have ht := hin t (by simp)
    simp only [runChecks] at h
    cases hc : check_limit st t config with
    | error e => rw [hc] at h; cases h
    | ok s1 =>
      rw [hc] at h
      simp only at h
      simp only [check_limit] at hc
      split at hc
      · cases hc
      · have hs1 : st.filter (fun x => decide (t - (config.window : Int) < x)) ++ [t] = s1 :=
          by injection hc
        have hstep :
            (s1.filter (fun x => decide (a < x))).length =
              (st.filter (fun x => decide (a < x))).length + 1 := by
          rw [← hs1]
          rw [List.filter_append, List.length_append]
          have hfilter :
              (st.filter (fun x => decide (t - (config.window : Int) < x))).filter
                  (fun x => decide (a < x)) =
                st.filter (fun x => decide (a < x)) := by
            rw [List.filter_filter]
            apply List.filter_congr
            intro x _
            by_cases hax : a < x
            · have : t - (config.window : Int) < x := by omega
              simp [hax, this]
            · simp [hax]
          rw [hfilter]
          simp [ht.1]
        have hrest := ih s1 st' h (fun x hx => hin x (by simp [hx]))
        simp only [List.length_cons]
        omega

/-- Claim C6 (amended): for a policy of `requests` per `window` seconds,
(1) after `requests` successful checks at instants all inside a
half-open interval of length `window`, a further check inside that same
interval is rejected with `RateLimitExceeded`; (2) provided the policy
admits at least one request, a check made more than `window` after
every timestamp in the state succeeds with the full budget restored:
all old timestamps at or before `now - window` are dropped and the new
state is exactly the fresh timestamp. -/
theorem check_limit_exhaustion_and_reset (config : RateLimitConfig) :
    (∀ (st st' times : List Int) (a t : Int),
      runChecks st times config = .ok st' →
      times.length = config.requests →
      (∀ x ∈ times, a < x ∧ x ≤ a + (config.window : Int)) →
      a < t → t ≤ a + (config.window : Int) →
      check_limit st' t config = .error .RateLimitExceeded)
    ∧ (∀ (st : List Int) (now : Int),
        1 ≤ config.requests →
        (∀ x ∈ st, now - x > (config.window : Int)) →
        check_limit st now config = .ok [now]) := by
  constructor
  · intro st st' times a t hrun hlen hin hat hta
    have hcount := runChecks_filter_count config a times st st' hrun hin
    have hmono :
        (st'.filter (fun x => decide (a < x))).length ≤
          (st'.filter (fun x => decide (t - (config.window : Int) < x))).length := by
      apply List.Sublist.length_le
      apply List.monotone_filter_right
      intro x hx
      have hax : a < x := by simpa using hx
      simpa using show t - (config.window : Int) < x by omega
    have hge :
        config.requests ≤
          (st'.filter (fun x => decide (t - (config.window : Int) < x))).length := by
      omega
    simp only [check_limit]
    rw [if_pos hge]
  · intro st now hreq hfar
    have hempty : st.filter (fun x => decide (now - (config.window : Int) < x)) = [] := by
      rw [List.filter_eq_nil_iff]
      intro x hx
      have := hfar x hx
      simpa using show ¬ (now - (config.window : Int) < x) by omega
    simp only [check_limit, hempty]
    rw [if_neg (by simp only [List.length_nil]; omega)]
    simp

/-- Counterexample to claim C6 as stated: with the (degenerate) policy
of 0 requests per 60 seconds and an empty history — so that the check
is vacuously made more than a window after every previously admitted
timestamp — `check_limit` rejects instead of succeeding with the full
budget. -/
theorem check_limit_zero_budget_never_succeeds :
    check_limit [] 100 { requests := 0, window := 60 } =
      .error .RateLimitExceeded := by
  decide

/-- Witness for claim C6's theorem with the policy of 2 requests per 60
seconds: two admitted checks at instants 1 and 2 exhaust the budget so
the check at instant 3 is rejected, and a check at instant 0 with a
single stale timestamp at -100 succeeds and restores the window. -/
theorem check_limit_exhaustion_and_reset_witness :
    check_limit [1, 2] 3 { requests := 2, window := 60 } =
      .error .RateLimitExceeded
    ∧ check_limit [-100] 0 { requests := 2, window := 60 } = .ok [0] :=
  ⟨(check_limit_exhaustion_and_reset { requests := 2, window := 60 }).1
      [] [1, 2] [1, 2] 0 3 (by decide) (by decide) (by decide) (by decide) (by decide),
   (check_limit_exhaustion_and_reset { requests := 2, window := 60 }).2
      [-100] 0 (by decide) (by decide)⟩

/-- Continuation byte test of RFC 3629 UTF-8: bytes 0x80 to 0xBF. -/
def isUtf8Cont (b : Nat) : Bool :=
  decide (128 ≤ b ∧ b ≤ 191)

/-- Validity of a byte sequence as UTF-8, as checked by Rust's
`String::from_utf8` (RFC 3629 table: ASCII; two-byte C2-DF; three-byte
E0 A0-BF, E1-EC, ED 80-9F, EE-EF; four-byte F0 90-BF, F1-F3, F4 80-8F;
each followed by continuation bytes). -/
def validUtf8 : List Nat → Bool
  | [] => true
  | b :: rest =>
    if b ≤ 127 then validUtf8 rest
    else if 194 ≤ b ∧ b ≤ 223 then
      match rest with
      | c1 :: r => isUtf8Cont c1 && validUtf8 r
      | [] => false
    else if b = 224 then
      match rest with
      | c1 :: c2 :: r =>
        decide (160 ≤ c1 ∧ c1 ≤ 191) && isUtf8Cont c2 && validUtf8 r
      | _ => false
    else if 225 ≤ b ∧ b ≤ 236 then
      match rest with
      | c1 :: c2 :: r => isUtf8Cont c1 && isUtf8Cont c2 && validUtf8 r
      | _ => false
    else if b = 237 then
      match rest with
      | c1 :: c2 :: r =>
        decide (128 ≤ c1 ∧ c1 ≤ 159) && isUtf8Cont c2 && validUtf8 r
      | _ => false
    else if 238 ≤ b ∧ b ≤ 239 then
      match rest with
      | c1 :: c2 :: r => isUtf8Cont c1 && isUtf8Cont c2 && validUtf8 r
      | _ => false
    else if b = 240 then
      match rest with
      | c1 :: c2 :: c3 :: r =>
        decide (144 ≤ c1 ∧ c1 ≤ 191) && isUtf8Cont c2 && isUtf8Cont c3 && validUtf8 r
      | _ => false
    else if 241 ≤ b ∧ b ≤ 243 then
      match rest with
      | c1 :: c2 :: c3 :: r =>
        isUtf8Cont c1 && isUtf8Cont c2 && isUtf8Cont c3 && validUtf8 r
      | _ => false
    else if b = 244 then
      match rest with
      | c1 :: c2 :: c3 :: r =>
        decide (128 ≤ c1 ∧ c1 ≤ 143) && isUtf8Cont c2 && isUtf8Cont c3 && validUtf8 r
      | _ => false
    else false

/-- ASCII lowercasing of a header name, as applied by
src/gateway/proxy.rs (`name.as_str().to_lowercase()`; header names are
ASCII tokens). -/
def asciiLowercase (s : String) : String :=
  String.mk (s.data.map (fun c =>
    if 65 ≤ c.toNat ∧ c.toNat ≤ 90 then Char.ofNat (c.toNat + 32) else c))

/-- src/gateway/proxy.rs `is_hop_by_hop`: the eight connection-scoped
header names, matched exactly on the lowercased name. -/
def is_hop_by_hop (name : String) : Bool :=
  name = "connection" || name = "keep-alive" || name = "proxy-authenticate" ||
  name = "proxy-authorization" || name = "te" || name = "trailers" ||
  name = "transfer-encoding" || name = "upgrade"

/-- The `http` crate's `HeaderValue::to_str`, called by the forwarding
loop: succeeds exactly when every byte of the value is visible ASCII
(0x20 to 0x7E) or horizontal tab. -/
def headerValueToStr (v : List Nat) : Option (List Nat) :=
  if v.all (fun b => decide (32 ≤ b ∧ b < 127) || decide (b = 9)) then some v
  else none

/-- The injected upstream authorization value of src/gateway/proxy.rs:
the bytes of the string starting with capital B, then "earer", a space,
and the access token. -/
def bearerValue (access_token : List Nat) : List Nat :=
  [66, 101, 97, 114, 101, 114, 32] ++ access_token

/-- The header list of the upstream request built by
src/gateway/proxy.rs `ProxyClient::forward`: the injected
`Authorization: Bearer` header, then every incoming header whose
lowercased name is neither hop-by-hop nor host nor authorization and
whose value converts with `to_str`. -/
def forward_request_headers (headers : List (String × List Nat))
    (access_token : List Nat) : List (String × List Nat) :=
  ("Authorization", bearerValue access_token) ::
    headers.filterMap (fun p =>
      if is_hop_by_hop (asciiLowercase p.1) = false ∧ asciiLowercase p.1 ≠ "host" ∧
          asciiLowercase p.1 ≠ "authorization"
      then (headerValueToStr p.2).map (fun v => (p.1, v))
      else none)

/-- Claim C5 (amended): the request built by `ProxyClient::forward`
starts with the injected `Authorization: Bearer access_token` header
(any incoming authorization value is excluded by name below), and an
incoming header is forwarded if and only if its lowercased name is not
hop-by-hop, is neither host nor authorization, and its value consists
solely of visible ASCII bytes (0x20 to 0x7E) or tab, which is exactly
when `HeaderValue::to_str` succeeds.  (The claim's condition of a valid
UTF-8 value is refuted by the counterexample theorem.) -/
theorem forward_request_headers_characterization
    (headers : List (String × List Nat)) (tok : List Nat) :
    (forward_request_headers headers tok).head? =
      some ("Authorization", bearerValue tok)
    ∧ ∀ (n : String) (v : List Nat),
        ((n, v) ∈ (forward_request_headers headers tok).tail ↔
          ((n, v) ∈ headers
            ∧ is_hop_by_hop (asciiLowercase n) = false
            ∧ asciiLowercase n ≠ "host"
            ∧ asciiLowercase n ≠ "authorization"
            ∧ v.all (fun b => decide (32 ≤ b ∧ b < 127) || decide (b = 9)) = true)) := by
  constructor
  · rfl
  · intro n v
    simp only [forward_request_headers, List.tail_cons, List.mem_filterMap]
    constructor
    · rintro ⟨p, hp, hf⟩
      by_cases hcond :
          is_hop_by_hop (asciiLowercase p.1) = false ∧ asciiLowercase p.1 ≠ "host" ∧
            asciiLowercase p.1 ≠ "authorization"
      · rw [if_pos hcond] at hf
        unfold headerValueToStr at hf
        by_cases hall :
            p.2.all (fun b => decide (32 ≤ b ∧ b < 127) || decide (b = 9)) = true
        · rw [if_pos hall] at hf
          simp only [Option.map] at hf
          injection hf with hpair
          have hn : p.1 = n := congrArg Prod.fst hpair
          have hv : p.2 = v := congrArg Prod.snd hpair
          subst hn
          subst hv
          exact ⟨hp, hcond.1, hcond.2.1, hcond.2.2, hall⟩
        · rw [if_neg hall] at hf
          simp at hf
      · rw [if_neg hcond] at hf
        cases hf
    · rintro ⟨hmem, h1, h2, h3, h4⟩
      refine ⟨(n, v), hmem, ?_⟩
      simp only
      rw [if_pos ⟨h1, h2, h3⟩]
      unfold headerValueToStr
      rw [if_pos h4]
      rfl

/-- Counterexample to claim C5 as stated: a header whose value is the
two-byte UTF-8 encoding of a non-ASCII character is valid UTF-8 and its
name passes every name filter, yet `forward` drops it, because
`HeaderValue::to_str` accepts only visible ASCII. -/
theorem forward_request_headers_drops_valid_utf8 :
    validUtf8 [195, 169] = true
    ∧ is_hop_by_hop (asciiLowercase "X-Note") = false
    ∧ asciiLowercase "X-Note" ≠ "host"
    ∧ asciiLowercase "X-Note" ≠ "authorization"
    ∧ ("X-Note", [195, 169]) ∉
        forward_request_headers [("X-Note", [195, 169])] [116] := by
  refine ⟨by decide, by decide, by decide, by decide, ?_⟩
  decide

/-- Witness for claim C5's theorem: with one plain header and one
connection header, the plain header is forwarded and the injected
authorization leads the list. -/
theorem forward_request_headers_characterization_witness :
    (forward_request_headers [("X-Trace", [97]), ("Connection", [99])] [116]).head? =
      some ("Authorization", bearerValue [116])
    ∧ (("X-Trace", [97]) ∈
        (forward_request_headers [("X-Trace", [97]), ("Connection", [99])] [116]).tail ↔
        ((("X-Trace", [97]) : String × List Nat) ∈
            [(("X-Trace", [97]) : String × List Nat), ("Connection", [99])]
          ∧ is_hop_by_hop (asciiLowercase "X-Trace") = false
          ∧ asciiLowercase "X-Trace" ≠ "host"
          ∧ asciiLowercase "X-Trace" ≠ "authorization"
          ∧ [97].all (fun b => decide (32 ≤ b ∧ b < 127) || decide (b = 9)) = true)) :=
  ⟨(forward_request_headers_characterization
      [("X-Trace", [97]), ("Connection", [99])] [116]).1,
   (forward_request_headers_characterization
      [("X-Trace", [97]), ("Connection", [99])] [116]).2 "X-Trace" [97]⟩

/-- The standard base64 alphabet as byte values: A-Z, a-z, 0-9, plus,
slash. -/
def b64alphabet : List Nat :=
  [65, 66, 67, 68, 69, 70, 71, 72, 73, 74, 75, 76, 77, 78, 79, 80, 81, 82,
   83, 84, 85, 86, 87, 88, 89, 90,
   97, 98, 99, 100, 101, 102, 103, 104, 105, 106, 107, 108, 109, 110, 111,
   112, 113, 114, 115, 116, 117, 118, 119, 120, 121, 122,
   48, 49, 50, 51, 52, 53, 54, 55, 56, 57, 43, 47]

/-- Encoding table: sextet to alphabet byte. -/
def b64tbl (i : Nat) : Nat :=
  b64alphabet.getD i 0

/-- Decoding table: alphabet byte to sextet, none for a byte outside
the alphabet (the padding byte 61 included). -/
def b64inv (c : Nat) : Option Nat :=
  b64alphabet.findIdx? (fun x => x = c)

/-- Standard base64 encoding with padding (the `base64` crate's
`STANDARD` engine used by src/gateway/encryption.rs), on bytes: groups
of three bytes become four alphabet bytes; a trailing byte becomes two
alphabet bytes and two padding bytes (61); two trailing bytes become
three alphabet bytes and one padding byte. -/
def b64encode : List Nat → List Nat
  | [] => []
  | [b0] => [b64tbl (b0 / 4), b64tbl (b0 % 4 * 16), 61, 61]
  | [b0, b1] => [b64tbl (b0 / 4), b64tbl (b0 % 4 * 16 + b1 / 16),
      b64tbl (b1 % 16 * 4), 61]
  | b0 :: b1 :: b2 :: rest =>
    b64tbl (b0 / 4) :: b64tbl (b0 % 4 * 16 + b1 / 16) ::
      b64tbl (b1 % 16 * 4 + b2 / 64) :: b64tbl (b2 % 64) :: b64encode rest

/-- Strict standard base64 decoding with canonical padding (the
`STANDARD` engine: length a multiple of four, padding only at the end,
trailing sextet bits required to be zero, no bytes outside the
alphabet). -/
def b64decode : List Nat → Option (List Nat)
  | [] => some []
  | c0 :: c1 :: c2 :: c3 :: rest =>
    match b64inv c0, b64inv c1 with
    | some s0, some s1 =>
      if c2 = 61 then
        if c3 = 61 ∧ rest = [] ∧ s1 % 16 = 0 then some [s0 * 4 + s1 / 16]
        else none
      else
        match b64inv c2 with
        | some s2 =>
          if c3 = 61 then
            if rest = [] ∧ s2 % 4 = 0 then
              some [s0 * 4 + s1 / 16, s1 % 16 * 16 + s2 / 4]
            else none
          else
            match b64inv c3 with
            | some s3 =>
              match b64decode rest with
              | some tail =>
                some ((s0 * 4 + s1 / 16) :: (s1 % 16 * 16 + s2 / 4) ::
                  (s2 % 4 * 64 + s3) :: tail)
              | none => none
            | none => none
        | none => none
    | _, _ => none
  | _ => none

theorem b64inv_tbl : ∀ s, s < 64 → b64inv (b64tbl s) = some s := by decide

theorem b64tbl_ne_pad : ∀ s, s < 64 → b64tbl s ≠ 61 := by decide

theorem b64decode_encode :
    ∀ (l : List Nat), (∀ b ∈ l, b < 256) → b64decode (b64encode l) = some l
  | [], _ => rfl
  | [b0], h => by
    have hb0 : b0 < 256 := h b0 (by simp)
    have h1 : b0 / 4 < 64 := by omega
    have h2 : b0 % 4 * 16 < 64 := by omega
    simp only [b64encode, b64decode, b64inv_tbl _ h1, b64inv_tbl _ h2]
    have hmod : b0 % 4 * 16 % 16 = 0 := by omega
    (simp [hmod]; omega)
  | [b0, b1], h => by
    have hb0 : b0 < 256 := h b0 (by simp)
    have hb1 : b1 < 256 := h b1 (by simp)
    have h1 : b0 / 4 < 64 := by omega
    have h2 : b0 % 4 * 16 + b1 / 16 < 64 := by omega
    have h3 : b1 % 16 * 4 < 64 := by omega
    simp only [b64encode, b64decode, b64inv_tbl _ h1, b64inv_tbl _ h2,
      b64inv_tbl _ h3]
    rw [if_neg (b64tbl_ne_pad _ h3)]
    have hmod : b1 % 16 * 4 % 4 = 0 := by omega
    have hout0 : b0 / 4 * 4 + (b0 % 4 * 16 + b1 / 16) / 16 = b0 := by omega
    (simp [hmod]; omega)
  | b0 :: b1 :: b2 :: r0 :: rs, h => by
    have hb0 : b0 < 256 := h b0 (by simp)
    have hb1 : b1 < 256 := h b1 (by simp)
    have hb2 : b2 < 256 := h b2 (by simp)
    have h1 : b0 / 4 < 64 := by omega
    have h2 : b0 % 4 * 16 + b1 / 16 < 64 := by omega
    have h3 : b1 % 16 * 4 + b2 / 64 < 64 := by omega
    have h4 : b2 % 64 < 64 := by omega
    have ih := b64decode_encode (r0 :: rs) (fun b hb => h b (by simp at hb ⊢; tauto))
    simp only [b64encode, b64decode, b64inv_tbl _ h1, b64inv_tbl _ h2,
      b64inv_tbl _ h3, b64inv_tbl _ h4]
    rw [if_neg (b64tbl_ne_pad _ h3), if_neg (b64tbl_ne_pad _ h4), ih]
    have hout0 : b0 / 4 * 4 + (b0 % 4 * 16 + b1 / 16) / 16 = b0 := by omega
    have hout1 :
        (b0 % 4 * 16 + b1 / 16) % 16 * 16 + (b1 % 16 * 4 + b2 / 64) / 4 = b1 := by
      omega
    have hout2 : (b1 % 16 * 4 + b2 / 64) % 4 * 64 + b2 % 64 = b2 := by omega
    rw [hout0, hout1, hout2]
  | [b0, b1, b2], h => by
    have hb0 : b0 < 256 := h b0 (by simp)
    have hb1 : b1 < 256 := h b1 (by simp)
    have hb2 : b2 < 256 := h b2 (by simp)
    have h1 : b0 / 4 < 64 := by omega
    have h2 : b0 % 4 * 16 + b1 / 16 < 64 := by omega
    have h3 : b1 % 16 * 4 + b2 / 64 < 64 := by omega
    have h4 : b2 % 64 < 64 := by omega
    simp only [b64encode, b64decode, b64inv_tbl _ h1, b64inv_tbl _ h2,
      b64inv_tbl _ h3, b64inv_tbl _ h4]
    rw [if_neg (b64tbl_ne_pad _ h3), if_neg (b64tbl_ne_pad _ h4)]
    have hout0 : b0 / 4 * 4 + (b0 % 4 * 16 + b1 / 16) / 16 = b0 := by omega
    have hout1 :
        (b0 % 4 * 16 + b1 / 16) % 16 * 16 + (b1 % 16 * 4 + b2 / 64) / 4 = b1 := by
      omega
    have hout2 : (b1 % 16 * 4 + b2 / 64) % 4 * 64 + b2 % 64 = b2 := by omega
    (simp [b64decode]; omega)

/-- src/gateway/encryption.rs `NONCE_SIZE`. -/
def NONCE_SIZE : Nat := 12

/-- src/gateway/encryption.rs `derive_key`: the password's bytes,
cycled, fill the 32-byte key buffer (zeros remain when the password is
empty, since cycling an empty iterator yields nothing). -/
def derive_key (password : List Nat) : List Nat :=
  if password.length = 0 then List.replicate 32 0
  else (List.range 32).map (fun i => password.getD (i % password.length) 0)

/-- The AES-256-GCM primitive of the `aes_gcm` crate, abstracted: an
authenticated cipher on key, nonce and message bytes, together with its
contract that decryption inverts encryption and that ciphertexts are
bytes.  src/gateway/encryption.rs builds the envelope around exactly
these two calls. -/
structure AEAD where
  encB : List Nat → List Nat → List Nat → Option (List Nat)
  decB : List Nat → List Nat → List Nat → Option (List Nat)
  dec_encB : ∀ key nonce p c, encB key nonce p = some c → decB key nonce c = some p
  encB_lt : ∀ key nonce p c, encB key nonce p = some c →
    (∀ b ∈ p, b < 256) → ∀ b ∈ c, b < 256

/-- Rust `String::from_utf8` on the decrypted bytes: the same bytes
when they are valid UTF-8, failure otherwise. -/
def string_from_utf8 (l : List Nat) : Option (List Nat) :=
  if validUtf8 l then some l else none

/-- src/gateway/encryption.rs `encrypt`: derive the key, AEAD-encrypt
the plaintext under a fresh random nonce (passed in as `nonce`),
prepend the nonce and base64-encode.  Cipher init cannot fail since
`derive_key` always yields 32 bytes. -/
def encrypt (A : AEAD) (plaintext : List Nat) (key : List Nat) (nonce : List Nat) :
    Except GatewayError (List Nat) :=
  match A.encB (derive_key key) nonce plaintext with
  | none => .error (.Internal "Encryption failed")
  | some ciphertext => .ok (b64encode (nonce ++ ciphertext))

/-- src/gateway/encryption.rs `decrypt`: base64-decode, reject
envelopes shorter than the nonce, split nonce from ciphertext,
AEAD-decrypt and decode as UTF-8. -/
def decrypt (A : AEAD) (encrypted : List Nat) (key : List Nat) :
    Except GatewayError (List Nat) :=
  match b64decode encrypted with
  | none => .error (.Internal "Base64 decode failed")
  | some data =>
    if data.length < NONCE_SIZE then .error (.Internal "Invalid encrypted data")
    else
      match A.decB (derive_key key) (data.take NONCE_SIZE) (data.drop NONCE_SIZE) with
      | none => .error (.Internal "Decryption failed")
      | some plaintext =>
        match string_from_utf8 plaintext with
        | none => .error (.Internal "UTF-8 decode failed")
        | some s => .ok s

/-- Claim C8: for every key and plaintext (a Rust `&str`: valid UTF-8
bytes), decrypting the envelope produced by `encrypt` with the same key
returns the plaintext; the envelope is base64 of the 12-byte nonce
followed by the ciphertext, and `decrypt` strips and reuses that
nonce. -/
theorem decrypt_encrypt_roundtrip (A : AEAD) (p key nonce env : List Nat)
    (hp_utf8 : validUtf8 p = true) (hp_lt : ∀ b ∈ p, b < 256)
    (hn_len : nonce.length = NONCE_SIZE) (hn_lt : ∀ b ∈ nonce, b < 256)
    (henc : encrypt A p key nonce = .ok env) :
    decrypt A env key = .ok p := by
  unfold encrypt at henc
  cases he : A.encB (derive_key key) nonce p with
  | none => rw [he] at henc; cases henc
  | some ct =>
    rw [he] at henc
    have henv : b64encode (nonce ++ ct) = env := by injection henc
    have hbytes : ∀ b ∈ nonce ++ ct, b < 256 := by
      intro b hb
      rcases List.mem_append.mp hb with hbn | hbc
      · exact hn_lt b hbn
      · exact A.encB_lt (derive_key key) nonce p ct he hp_lt b hbc
    have hdec : b64decode env = some (nonce ++ ct) := by
      rw [← henv]
      exact b64decode_encode (nonce ++ ct) hbytes
    have hlen : (nonce ++ ct).length = NONCE_SIZE + ct.length := by
      rw [List.length_append, hn_len]
    simp only [decrypt, hdec]
    rw [if_neg (by rw [hlen]; omega)]
    have htake : (nonce ++ ct).take NONCE_SIZE = nonce := by
      rw [← hn_len]
      exact List.take_left nonce ct
    have hdrop : (nonce ++ ct).drop NONCE_SIZE = ct := by
      rw [← hn_len]
      exact List.drop_left nonce ct
    rw [htake, hdrop, A.dec_encB (derive_key key) nonce p ct he]
    simp [string_from_utf8, hp_utf8]

/-- The identity instance of the abstract AEAD, used to evaluate the
envelope layer on concrete bytes. -/
def idAead : AEAD where
  encB := fun _ _ p => some p
  decB := fun _ _ c => some c
  dec_encB := by
    intro key nonce p c h
    injection h with h
    rw [← h]
  encB_lt := by
    intro key nonce p c h hp b hb
    injection h with h
    exact hp b (h ▸ hb)

/-- Witness for claim C8's theorem: a two-byte ASCII plaintext under a
one-byte key and the zero nonce round-trips through the concrete
envelope. -/
theorem decrypt_encrypt_roundtrip_witness :
    decrypt idAead
      (b64encode ([0, 0, 0, 0, 0, 0, 0, 0, 0, 0, 0, 0] ++ [104, 105])) [107] =
      .ok [104, 105] :=
  decrypt_encrypt_roundtrip idAead [104, 105] [107]
    [0, 0, 0, 0, 0, 0, 0, 0, 0, 0, 0, 0]
    (b64encode ([0, 0, 0, 0, 0, 0, 0, 0, 0, 0, 0, 0] ++ [104, 105]))
    (by decide) (by decide) (by decide) (by decide) rfl

/-- On-disk credential record, from src/config/credentials.rs
(`EncryptedCredential`): token fields hold base64 AEAD envelopes when
`encrypted` is true and plaintext bytes otherwise. -/
structure EncryptedCredential where
  service_id : String
  access_token : List Nat
  refresh_token : Option (List Nat)
  expires_at : Option Int
  scopes : List String
  encrypted : Bool
deriving DecidableEq

/-- One record of the loading loop of
`CredentialManager::load_from_file`: an encrypted record has both
tokens decrypted (failure propagates), a plaintext record is accepted
as is and flagged for migration (the returned Bool). -/
def decryptRecord (A : AEAD) (key : List Nat) (r : EncryptedCredential) :
    Except GatewayError (StoredCredential × Bool) :=
  if r.encrypted then
    match decrypt A r.access_token key with
    | .error e => .error e
    | .ok access_token =>
      match r.refresh_token with
      | some rt =>
        match decrypt A rt key with
        | .error e => .error e
        | .ok rt_dec =>
          .ok ({ service_id := r.service_id, access_token := access_token,
                 refresh_token := some rt_dec, expires_at := r.expires_at,
                 scopes := r.scopes }, false)
      | none =>
        .ok ({ service_id := r.service_id, access_token := access_token,
               refresh_token := none, expires_at := r.expires_at,
               scopes := r.scopes }, false)
  else
    .ok ({ service_id := r.service_id, access_token := r.access_token,
           refresh_token := r.refresh_token, expires_at := r.expires_at,
           scopes := r.scopes }, true)

/-- The loading loop of `CredentialManager::load_from_file`: fold the
records into the credential map (keyed by service id) while tracking
whether any plaintext record requires migration. -/
def decryptPass (A : AEAD) (key : List Nat) :
    List EncryptedCredential → List (String × StoredCredential) → Bool →
      Except GatewayError (List (String × StoredCredential) × Bool)
  | [], acc, flag => .ok (acc, flag)
  | r :: rest, acc, flag =>
    match decryptRecord A key r with
    | .error e => .error e
    | .ok (c, isPlain) =>
      decryptPass A key rest (mapInsert acc c.service_id c) (flag || isPlain)

/-- The migration loop of `CredentialManager::load_from_file`: encrypt
every entry's tokens in order (the nonce oracle `ng` supplies the fresh
random nonce of each `encrypt` call), stopping with none at the first
encryption failure, as the Rust loop breaks with `migration_error`. -/
def migrateRecords (A : AEAD) (key : List Nat) (ng : Nat → List Nat) :
    List (String × StoredCredential) → Nat → Option (List EncryptedCredential)
  | [], _ => some []
  | (_, c) :: rest, i =>
    match encrypt A c.access_token key (ng i) with
    | .error _ => none
    | .ok accessEnc =>
      match c.refresh_token with
      | some rt =>
        match encrypt A rt key (ng (i + 1)) with
        | .error _ => none
        | .ok rtEnc =>
          match migrateRecords A key ng rest (i + 2) with
          | some tail =>
            some ({ service_id := c.service_id, access_token := accessEnc,
                    refresh_token := some rtEnc, expires_at := c.expires_at,
                    scopes := c.scopes, encrypted := true } :: tail)
          | none => none
      | none =>
        match migrateRecords A key ng rest (i + 1) with
        | some tail =>
          some ({ service_id := c.service_id, access_token := accessEnc,
                  refresh_token := none, expires_at := c.expires_at,
                  scopes := c.scopes, encrypted := true } :: tail)
        | none => none

/-- What `CredentialManager::load_from_file` leaves behind: the load
result (the in-memory map on success) and the records written back to
the credentials file during migration, none when the file is left
untouched. -/
structure LoadOutcome where
  result : Except GatewayError (List (String × StoredCredential))
  written : Option (List EncryptedCredential)
deriving DecidableEq

/-- src/config/credentials.rs `CredentialManager::load_from_file`.
`readParse` is none when reading the file or parsing its JSON fails
(both yield `Internal`); otherwise it holds the parsed records.  After
loading, if any record was plaintext, the migration loop re-encrypts
all entries; an encryption failure is logged and swallowed (nothing
written), serialization of the records never fails in the model
(`serde_json::to_string_pretty` on these records cannot fail), and a
failed file write (`writeOk = false`) is also logged and swallowed.
The load result is Ok with the full map in every migration branch. -/
def load_from_file (A : AEAD) (readParse : Option (List EncryptedCredential))
    (key : List Nat) (ng : Nat → List Nat) (writeOk : Bool) : LoadOutcome :=
  match readParse with
  | none => { result := .error (.Internal "Failed to read or parse credentials"),
              written := none }
  | some records =>
    match decryptPass A key records [] false with
    | .error e => { result := .error e, written := none }
    | .ok (credentials, needsMigration) =>
      if needsMigration then
        match migrateRecords A key ng credentials 0 with
        | none => { result := .ok credentials, written := none }
        | some encRecords =>
          if writeOk then { result := .ok credentials, written := some encRecords }
          else { result := .ok credentials, written := none }
      else { result := .ok credentials, written := none }

/-- A parsed record marked encrypted whose access token is not valid
base64 (byte 33 is not in the alphabet and the length is not a
multiple of four). -/
def badRecord : EncryptedCredential :=
  { service_id := "svc", access_token := [33], refresh_token := none,
    expires_at := none, scopes := [], encrypted := true }

/-- Counterexample to claim C4 as stated: a file whose JSON parses into
one well-formed record still fails to load, because the record is
marked encrypted and decrypting its access token fails (base64), so
`load_from_file` returns an error that is neither an I/O nor a JSON
error. -/
theorem load_from_file_fails_on_undecryptable_record :
    load_from_file idAead (some [badRecord]) [107] (fun _ => []) true =
      { result := .error (.Internal "Base64 decode failed"), written := none } := by
  rfl

theorem decryptRecord_ok_iff (A : AEAD) (key : List Nat) (r : EncryptedCredential) :
    (∃ c, decryptRecord A key r = .ok c) ↔
      (r.encrypted = true →
        (∃ v, decrypt A r.access_token key = .ok v) ∧
        (∀ rt, r.refresh_token = some rt → ∃ v, decrypt A rt key = .ok v)) := by
  constructor
  · rintro ⟨c, hc⟩ htrue
    simp only [decryptRecord, htrue, if_true] at hc
    cases ha : decrypt A r.access_token key with
    | error e => simp only [ha] at hc; cases hc
    | ok v =>
      simp only [ha] at hc
      refine ⟨⟨v, rfl⟩, ?_⟩
      intro rt hrt
      simp only [hrt] at hc
      cases hb : decrypt A rt key with
      | error e => simp only [hb] at hc; cases hc
      | ok w => exact ⟨w, rfl⟩
  · intro hr
    by_cases he : r.encrypted = true
    · obtain ⟨⟨v, hv⟩, hrt⟩ := hr he
      cases hrf : r.refresh_token with
      | none =>
        refine ⟨(⟨r.service_id, v, none, r.expires_at, r.scopes⟩, false), ?_⟩
        simp only [decryptRecord, he, if_true, hv, hrf]
      | some rt =>
        obtain ⟨w, hw⟩ := hrt rt hrf
        refine ⟨(⟨r.service_id, v, some w, r.expires_at, r.scopes⟩, false), ?_⟩
        simp only [decryptRecord, he, if_true, hv, hrf, hw]
    · have he2 : r.encrypted = false := by
        revert he; cases r.encrypted <;> simp
      refine ⟨(⟨r.service_id, r.access_token, r.refresh_token, r.expires_at,
          r.scopes⟩, true), ?_⟩
      simp [decryptRecord, he2]

theorem decryptPass_ok_iff (A : AEAD) (key : List Nat) :
    ∀ (records : List EncryptedCredential) (acc : List (String × StoredCredential))
      (flag : Bool),
      (∃ out, decryptPass A key records acc flag = .ok out) ↔
        ∀ r ∈ records, (r.encrypted = true →
          (∃ v, decrypt A r.access_token key = .ok v) ∧
          (∀ rt, r.refresh_token = some rt → ∃ v, decrypt A rt key = .ok v)) := by
  intro records
  induction records with
  | nil =>
    intro acc flag
    simp [decryptPass]
  | cons r rest ih =>
    intro acc flag
    constructor
    · rintro ⟨out, hout⟩ q hq
      simp only [decryptPass] at hout
      cases hc : decryptRecord A key r with
      | error e => rw [hc] at hout; cases hout
      | ok cpair =>
        rcases cpair with ⟨c0, isPlain⟩
        simp only [hc] at hout
        rcases List.mem_cons.mp hq with rfl | hmem
        · exact (decryptRecord_ok_iff A key q).mp ⟨(c0, isPlain), hc⟩
        · exact ((ih _ _).mp ⟨out, hout⟩) q hmem
    · intro hall
      obtain ⟨c, hc⟩ := (decryptRecord_ok_iff A key r).mpr (hall r (by simp))
      rcases c with ⟨c0, isPlain⟩
      obtain ⟨out, hout⟩ :=
        (ih (mapInsert acc c0.service_id c0) (flag || isPlain)).mpr
          (fun q hq => hall q (by simp [hq]))
      refine ⟨out, ?_⟩
      simp only [decryptPass, hc]
      exact hout

/-- Claim C4 (amended): with reading and JSON parsing abstracted into
the `readParse` input, `load_from_file` on a parsed record list
succeeds exactly when every record marked encrypted has an access token
and (when present) refresh token that decrypt; in particular a record
list whose entries are all plaintext always loads, but a decryption
failure of an encrypted record also fails the load, beyond the claim's
I/O and JSON failures (see the counterexample theorem). -/
theorem load_from_file_ok_iff (A : AEAD) (key : List Nat) (ng : Nat → List Nat)
    (writeOk : Bool) (records : List EncryptedCredential) :
    (∃ m, (load_from_file A (some records) key ng writeOk).result = .ok m) ↔
      ∀ r ∈ records, (r.encrypted = true →
        (∃ v, decrypt A r.access_token key = .ok v) ∧
        (∀ rt, r.refresh_token = some rt → ∃ v, decrypt A rt key = .ok v)) := by
  rw [← decryptPass_ok_iff A key records [] false]
  cases hp : decryptPass A key records [] false with
  | error e =>
    constructor
    · rintro ⟨m, hm⟩
      simp only [load_from_file, hp] at hm
      cases hm
    · rintro ⟨out, hout⟩
      cases hout
  | ok out =>
    constructor
    · intro _
      exact ⟨out, rfl⟩
    · intro _
      rcases out with ⟨creds, flag⟩
      refine ⟨creds, ?_⟩
      simp only [load_from_file, hp]
      cases flag with
      | false => rfl
      | true =>
        cases hmig : migrateRecords A key ng creds 0 with
        | none => simp [hmig]
        | some encs => cases writeOk <;> simp [hmig]

/-- Claim C10: given the parsed records of the load (first pass result
`creds` with migration flag `flag`), the load result is Ok with the
full in-memory map in every branch; when the migration loop fails on
some entry (an encryption failure) nothing is written and the on-disk
file is left as it was; and the file is rewritten only when migration
encrypted every entry's tokens successfully (and then only on a
successful write during a required migration).  Serialization of the
records never fails in the model, matching
`serde_json::to_string_pretty` on these record lists. -/
theorem load_from_file_migration_atomic (A : AEAD) (key : List Nat)
    (ng : Nat → List Nat) (writeOk : Bool) (records : List EncryptedCredential)
    (creds : List (String × StoredCredential)) (flag : Bool)
    (hp : decryptPass A key records [] false = .ok (creds, flag)) :
    (load_from_file A (some records) key ng writeOk).result = .ok creds
    ∧ (migrateRecords A key ng creds 0 = none →
        (load_from_file A (some records) key ng writeOk).written = none)
    ∧ (∀ encRecords,
        (load_from_file A (some records) key ng writeOk).written = some encRecords →
        migrateRecords A key ng creds 0 = some encRecords
          ∧ writeOk = true ∧ flag = true) := by
  refine ⟨?_, ?_, ?_⟩
  · simp only [load_from_file, hp]
    cases flag with
    | false => rfl
    | true =>
      cases hmig : migrateRecords A key ng creds 0 with
      | none => simp [hmig]
      | some encs => cases writeOk <;> simp [hmig]
  · intro hmig
    simp only [load_from_file, hp]
    cases flag with
    | false => rfl
    | true => simp [hmig]
  · intro encRecords hw
    revert hw
    simp only [load_from_file, hp]
    cases flag with
    | false => intro hw; cases hw
    | true =>
      cases hmig : migrateRecords A key ng creds 0 with
      | none => simp [hmig]
      | some encs =>
        cases writeOk with
        | false => simp [hmig]
        | true =>
          simp only [hmig, if_true]
          intro hw
          injection hw with hw
          simp [hmig, hw]

/-- The always-failing instance of the abstract AEAD, exercising the
migration failure branch. -/
def failAead : AEAD where
  encB := fun _ _ _ => none
  decB := fun _ _ _ => none
  dec_encB := by intro key nonce p c h; cases h
  encB_lt := by intro key nonce p c h; cases h

/-- A plaintext on-disk record (migration required). -/
def plainRecord : EncryptedCredential :=
  { service_id := "svc", access_token := [104], refresh_token := none,
    expires_at := none, scopes := [], encrypted := false }

/-- The in-memory credential loaded from `plainRecord`. -/
def plainCred : StoredCredential :=
  { service_id := "svc", access_token := [104], refresh_token := none,
    expires_at := none, scopes := [] }

/-- Witness for claim C10's theorem: loading a plaintext record with a
cipher whose encryption fails keeps the load Ok with the full map and
writes nothing back. -/
theorem load_from_file_migration_atomic_witness :
    (load_from_file failAead (some [plainRecord]) [107] (fun _ => []) true).result =
      .ok [("svc", plainCred)]
    ∧ (load_from_file failAead (some [plainRecord]) [107] (fun _ => []) true).written =
      none :=
  have h := load_from_file_migration_atomic failAead [107] (fun _ => []) true
    [plainRecord] [("svc", plainCred)] true rfl
  ⟨h.1, h.2.1 rfl⟩
